import Mathlib

/-!
Verification of the `chat-ecs` archetype-based entity/component storage
engine (crates/chat-ecs). The Rust source is shallowly embedded: hash maps
become association lists, `u32` counters become `Nat` reduced modulo `2^32`
where the source wraps, raw allocation is abstracted to the element
capacity a buffer was (re)allocated for, and panics become `Except.error`.
-/

set_option autoImplicit false

namespace ChatEcs

/-! ## Association-list model of `std::collections::HashMap` -/

/-- Lookup of the first entry with the given key (`HashMap::get`). -/
def lookupA {α β : Type} [DecidableEq α] (k : α) : List (α × β) → Option β
  | [] => none
  | (k₁, v) :: rest => if k₁ = k then some v else lookupA k rest

/-- `HashMap::insert`: replace the value at an existing key, else append. -/
def insertReplaceA {α β : Type} [DecidableEq α] (k : α) (v : β) :
    List (α × β) → List (α × β)
  | [] => [(k, v)]
  | (k₁, w) :: rest =>
    if k₁ = k then (k₁, v) :: rest else (k₁, w) :: insertReplaceA k v rest

/-- `HashMap::entry(k).or_insert(v)`: keep an existing entry, else append. -/
def insertIfAbsentA {α β : Type} [DecidableEq α] (k : α) (v : β)
    (l : List (α × β)) : List (α × β) :=
  if (lookupA k l).isSome then l else l ++ [(k, v)]

/-- `HashMap::remove`: drop the first entry with the given key. -/
def removeA {α β : Type} [DecidableEq α] (k : α) : List (α × β) → List (α × β)
  | [] => []
  | (k₁, v) :: rest => if k₁ = k then rest else (k₁, v) :: removeA k rest

/-- `HashMap::entry(k).and_modify(f).or_insert(d)`:
update the entry at an existing key in place, else append a default. -/
def updateOrInsertA {α β : Type} [DecidableEq α] (k : α) (f : β → β) (d : β) :
    List (α × β) → List (α × β)
  | [] => [(k, d)]
  | (k₁, v) :: rest =>
    if k₁ = k then (k₁, f v) :: rest else (k₁, v) :: updateOrInsertA k f d rest

theorem lookupA_insertReplaceA_self {α β : Type} [DecidableEq α]
    (k : α) (v : β) (l : List (α × β)) :
    lookupA k (insertReplaceA k v l) = some v := by
  induction l with
  | nil => simp [insertReplaceA, lookupA]
  | cons p rest ih =>
    obtain ⟨k₁, w⟩ := p
    by_cases h : k₁ = k <;> simp [insertReplaceA, lookupA, h, ih]

theorem lookupA_updateOrInsertA_self {α β : Type} [DecidableEq α]
    (k : α) (f : β → β) (d : β) (l : List (α × β)) :
    lookupA k (updateOrInsertA k f d l) =
      some (match lookupA k l with | some v => f v | none => d) := by
  induction l with
  | nil => simp [updateOrInsertA, lookupA]
  | cons p rest ih =>
    obtain ⟨k₁, w⟩ := p
    by_cases h : k₁ = k <;> simp [updateOrInsertA, lookupA, h, ih]

theorem lookupA_updateOrInsertA_ne {α β : Type} [DecidableEq α]
    (k k₂ : α) (f : β → β) (d : β) (l : List (α × β)) (h : k ≠ k₂) :
    lookupA k₂ (updateOrInsertA k f d l) = lookupA k₂ l := by
  induction l with
  | nil => simp [updateOrInsertA, lookupA, h]
  | cons p rest ih =>
    obtain ⟨k₁, w⟩ := p
    by_cases h₁ : k₁ = k
    · subst h₁
      simp [updateOrInsertA, lookupA, h]
    · by_cases h₂ : k₁ = k₂
      · subst h₂
        have h₃ : ¬k₁ = k := fun hh => h hh.symm
        simp [updateOrInsertA, lookupA, h₁, h₃]
      · simp [updateOrInsertA, lookupA, h₁, h₂, ih]

theorem lookupA_mem {α β : Type} [DecidableEq α]
    {k : α} {v : β} {l : List (α × β)} (h : lookupA k l = some v) :
    (k, v) ∈ l := by
  induction l with
  | nil => simp [lookupA] at h
  | cons p rest ih =>
    obtain ⟨k₁, w⟩ := p
    by_cases h₁ : k₁ = k
    · subst h₁
      simp [lookupA] at h
      simp [h]
    · simp [lookupA, h₁] at h
      exact List.mem_cons_of_mem _ (ih h)

theorem lookupA_eq_none_of_not_mem_keys {α β : Type} [DecidableEq α]
    {k : α} {l : List (α × β)} (h : k ∉ l.map Prod.fst) :
    lookupA k l = none := by
  induction l with
  | nil => rfl
  | cons p rest ih =>
    obtain ⟨k₁, w⟩ := p
    simp only [List.map_cons, List.mem_cons, not_or] at h
    have h₁ : ¬k₁ = k := fun hh => h.1 hh.symm
    simp [lookupA, h₁, ih h.2]

theorem lookupA_removeA_of_nodup {α β : Type} [DecidableEq α]
    {k : α} {l : List (α × β)} (hnd : (l.map Prod.fst).Nodup) :
    lookupA k (removeA k l) = none ∨ lookupA k l = none := by
  induction l with
  | nil => simp [removeA, lookupA]
  | cons p rest ih =>
    obtain ⟨k₁, w⟩ := p
    simp at hnd
    by_cases h₁ : k₁ = k
    · subst h₁
      left
      simpa [removeA, lookupA] using
        lookupA_eq_none_of_not_mem_keys (by simpa using hnd.1)
    · rcases ih hnd.2 with h | h
      · left
        simp [removeA, lookupA, h₁, h]
      · right
        simp [lookupA, h₁, h]

/-! ## Entity identifiers (src/crates/chat-ecs/src/entity.rs)

`Entity` is a `u32` handle; we model the raw value as a `Nat` below `2^32`.
-/

def u32Mod : Nat := 4294967296

namespace Entity

/-- `Entity::EXTERNAL_MIN` (0). -/
def EXTERNAL_MIN : Nat := 0

/-- `Entity::EXTERNAL_MAX` (`0x7fffffff`). -/
def EXTERNAL_MAX : Nat := 0x7fffffff

/-- `Entity::INTERNAL_MIN` (`0x80000000`). -/
def INTERNAL_MIN : Nat := 0x80000000

/-- `Entity::INTERNAL_MAX` (`u32::MAX - 1`). -/
def INTERNAL_MAX : Nat := 4294967294

/-- `Entity::NULL` (`u32::MAX`), the reserved "no identifier" sentinel. -/
def NULL : Nat := 4294967295

end Entity

/-- `Location { archetype, index }` from entity.rs. -/
structure Location where
  archetype : Nat
  index : Nat
deriving DecidableEq, Repr

/-- `EntityLoc { entity, location }` from entity.rs. -/
structure EntityLoc where
  entity : Nat
  location : Location
deriving DecidableEq, Repr

/-- `EntityError` from entity.rs. -/
inductive EntityError where
  | doesNotExist (e : Nat)
  | duplicateID (id : Nat)
  | outOfBounds
  | overflow
deriving DecidableEq, Repr

/-- `EntityManager { entities, next, free_list }`; the `HashMap` is an
association list and the `AtomicU32` is its `Nat` value. -/
structure EntityManager where
  entities : List (Nat × Location)
  next : Nat
  freeList : List Nat
deriving DecidableEq, Repr

namespace EntityManager

/-- `EntityManager::new` / `Default`: empty map, counter at
`Entity::INTERNAL_MIN`, empty free list. -/
def new : EntityManager :=
  { entities := [], next := Entity.INTERNAL_MIN, freeList := [] }

/-- `EntityManager::with_id`: bounds check, then duplicate check against the
live map. Mutates nothing. -/
def withId (m : EntityManager) (id : Nat) : Except EntityError Nat :=
  if Entity.EXTERNAL_MAX < id then
    .error .outOfBounds
  else if (lookupA id m.entities).isSome then
    .error (.duplicateID id)
  else
    .ok id

/-- `EntityManager::alloc`: `fetch_add(1)` on the counter (wrapping at
`2^32`), then `NonZeroU32::try_from` which fails exactly on the value 0. -/
def alloc (m : EntityManager) : Except EntityError Nat × EntityManager :=
  let eId := m.next
  let m₁ := { m with next := (m.next + 1) % u32Mod }
  (if eId = 0 then .error .overflow else .ok eId, m₁)

/-- `EntityManager::create`: pop the free list (a `Vec`, so from the back),
else allocate fresh. -/
def create (m : EntityManager) : Except EntityError Nat × EntityManager :=
  match m.freeList.getLast? with
  | some e => (.ok e, { m with freeList := m.freeList.dropLast })
  | none => m.alloc

/-- `EntityManager::destroy`: remove the live mapping; on success push the
identifier to the free list and return the location, else report
`DoesNotExist` leaving the state untouched. -/
def destroy (m : EntityManager) (e : Nat) :
    Except EntityError EntityLoc × EntityManager :=
  match lookupA e m.entities with
  | some location =>
    (.ok { entity := e, location },
     { m with entities := removeA e m.entities, freeList := m.freeList ++ [e] })
  | none => (.error (.doesNotExist e), m)

/-- `EntityManager::get_loc`: pure lookup. -/
def getLoc (m : EntityManager) (e : Nat) : Option EntityLoc :=
  (lookupA e m.entities).map (fun location => { entity := e, location })

end EntityManager

/-- The public mutating operations of `EntityManager`, for reasoning about
arbitrary call sequences. -/
inductive EOp where
  | create
  | withId (id : Nat)
  | destroy (e : Nat)
  | getLoc (e : Nat)
deriving DecidableEq, Repr

/-- State reached after one operation (`with_id` and `get_loc` do not
mutate the manager). -/
def stepE (m : EntityManager) : EOp → EntityManager
  | .create => (m.create).2
  | .withId _ => m
  | .destroy e => (m.destroy e).2
  | .getLoc _ => m

/-- State reached after a sequence of operations. -/
def runE (m : EntityManager) (ops : List EOp) : EntityManager :=
  ops.foldl stepE m

theorem runE_empty_invariant (ops : List EOp) (m : EntityManager)
    (h : m.entities = [] ∧ m.freeList = []) :
    (runE m ops).entities = [] ∧ (runE m ops).freeList = [] := by
  induction ops generalizing m with
  | nil => exact h
  | cons op rest ih =>
    refine ih (stepE m op) ?_
    obtain ⟨he, hf⟩ := h
    cases op with
    | create =>
      simp [stepE, EntityManager.create, hf, EntityManager.alloc, he]
    | withId id => exact ⟨he, hf⟩
    | destroy e =>
      simp [stepE, EntityManager.destroy, he, lookupA, hf]
    | getLoc e => exact ⟨he, hf⟩

/-! ## Components and archetypes (src/crates/chat-ecs/src/component.rs)

`TypeId` is abstracted to a `Nat` tag (`TypeId` is `Ord + Eq`, which is all
the source uses); `Layout` to its size and alignment; the optional
type-erased destructor `drop: Option (unsafe fn)` to a presence flag.  Raw
buffers are abstracted to the element capacity the buffer was last
(re)allocated for (`0` = the aligned dangling sentinel of
`ComponentColumn::new`); allocation is assumed to succeed.
-/

/-- `ComponentId` (alias for `TypeId`), modelled as a `Nat` tag. -/
abbrev ComponentId := Nat

/-- `ComponentInfo { id, layout, drop }`. -/
structure ComponentInfo where
  id : ComponentId
  size : Nat
  align : Nat
  hasDrop : Bool
deriving DecidableEq, Repr

/-- `ComponentColumn { info, data }`: `allocCap` is the element capacity of
the current backing buffer, `0` for the dangling sentinel pointer. -/
structure ComponentColumn where
  info : ComponentInfo
  allocCap : Nat
deriving DecidableEq, Repr

/-- `ComponentColumn::new`: no allocation, aligned dangling sentinel. -/
def ComponentColumn.new (info : ComponentInfo) : ComponentColumn :=
  { info, allocCap := 0 }

/-- `ComponentColumn::with_capacity`: `capacity == 0` behaves as `new`,
otherwise allocates `size * capacity` bytes (allocation success assumed). -/
def ComponentColumn.withCapacity (info : ComponentInfo) (capacity : Nat) :
    ComponentColumn :=
  if capacity = 0 then ComponentColumn.new info
  else { info, allocCap := capacity }

/-- Stable insertion into a list sorted by `ComponentInfo.id`
(the effect of `Vec::sort_by_key(|info| info.id)`, which is stable). -/
def insertSortedInfo (x : ComponentInfo) : List ComponentInfo → List ComponentInfo
  | [] => [x]
  | y :: ys => if x.id < y.id then x :: y :: ys else y :: insertSortedInfo x ys

/-- `component_info.sort_by_key(|info| info.id)`. -/
def sortInfoByKey (l : List ComponentInfo) : List ComponentInfo :=
  l.foldr insertSortedInfo []

/-- `Archetype { id, entities, capacity, component_ids, components }`. -/
structure Archetype where
  id : Nat
  entities : List Nat
  capacity : Nat
  componentIds : List ComponentId
  components : List ComponentColumn
deriving DecidableEq, Repr

namespace Archetype

/-- `Archetype::from_info_with_capacity`: sort the metadata by component id,
then build one column per entry, all with the same capacity. -/
def fromInfoWithCapacity (id : Nat) (components : List ComponentInfo)
    (capacity : Nat) : Archetype :=
  let sorted := sortInfoByKey components
  { id
    entities := []
    capacity
    componentIds := sorted.map (·.id)
    components := sorted.map (fun info => ComponentColumn.withCapacity info capacity) }

/-- `Archetype::from_info`: capacity 0. -/
def fromInfo (id : Nat) (components : List ComponentInfo) : Archetype :=
  fromInfoWithCapacity id components 0

/-- `Archetype::grow`: `new_capacity = max(old_capacity * 2, 8)`; every
column is (re)allocated to hold `new_capacity` elements (the source
reallocs when `old_capacity > 0` and allocates fresh otherwise; either way
the buffer afterwards holds `new_capacity` elements). -/
def grow (a : Archetype) : Archetype :=
  let newCapacity := max (a.capacity * 2) 8
  { a with
    components := a.components.map (fun c => { c with allocCap := newCapacity })
    capacity := newCapacity }

/-- `Archetype::insert`: grow first when `new_index + 1 > capacity >> 1`,
then push the entity (the returned row cursor is not modelled). -/
def insert (a : Archetype) (entity : Nat) : Archetype :=
  let newIndex := a.entities.length
  let a₁ := if a.capacity / 2 < newIndex + 1 then a.grow else a
  { a₁ with entities := a₁.entities ++ [entity] }

end Archetype

/-- Observable effects of `Drop for Archetype` on one column: how many
times the column's type-erased destructor ran, whether `dealloc` was
reached, and the byte size of the layout passed to `dealloc`. -/
structure ColumnDropTrace where
  destructorCalls : Nat
  deallocCalled : Bool
  deallocBytes : Nat
deriving DecidableEq, Repr

/-- The destructor loop of `Drop for Archetype`:
`for _i in 0..size { d(data); ... }`, counted per iteration. -/
def dropLoopCalls (size : Nat) : Nat :=
  (List.range size).foldl (fun n _ => n + 1) 0

/-- `Drop for Archetype`, per column: run the destructor (when present)
once per iteration of the `0..size` loop where `size = self.len()`, then
call `dealloc` iff `layout.size() > 0`, with layout byte size
`layout.size() * self.capacity`. -/
def dropTraceColumn (size capacity : Nat) (col : ComponentColumn) :
    ColumnDropTrace :=
  { destructorCalls := if col.info.hasDrop then dropLoopCalls size else 0
    deallocCalled := decide (0 < col.info.size)
    deallocBytes := col.info.size * capacity }

/-- `Drop for Archetype` over all columns. -/
def Archetype.dropTrace (a : Archetype) : List ColumnDropTrace :=
  a.components.map (dropTraceColumn a.entities.length a.capacity)

/-! ## Archetype registry (`ArchetypeManager`) -/

/-- `ComponentInfo::of::<()>()`: the unit component — `TypeId` tag 0 by
convention, `Layout::new::<()>` is size 0 / align 1, `needs_drop` is
false. -/
def unitInfo : ComponentInfo := { id := 0, size := 0, align := 1, hasDrop := false }

/-- `ArchetypeManager { archetypes, next, index, component_index }`. -/
structure ArchetypeManager where
  archetypes : List (Nat × Archetype)
  next : Nat
  index : List (List ComponentId × Nat)
  componentIndex : List (ComponentId × List Nat)
deriving DecidableEq, Repr

namespace ArchetypeManager

/-- `Default for ArchetypeManager`: seeded with the archetype of `[()]` at
the reserved id 0, counter at 1, both indexes primed for the unit
component. -/
def new : ArchetypeManager :=
  { archetypes := [(0, Archetype.fromInfo 0 [unitInfo])]
    next := 1
    index := [([unitInfo.id], 0)]
    componentIndex := [(unitInfo.id, [0])] }

/-- `ArchetypeManager::get_by_id`. -/
def getById (m : ArchetypeManager) (id : Nat) : Option Archetype :=
  lookupA id m.archetypes

/-- One step of the `for comp_id in &ids` loop of
`get_or_insert_with_info`: `component_index.entry(comp_id)
.and_modify(|l| l.push(arch_id)).or_insert(vec![arch_id])`. -/
def pushComponentIndex (ci : List (ComponentId × List Nat))
    (compId : ComponentId) (archId : Nat) : List (ComponentId × List Nat) :=
  updateOrInsertA compId (fun l => l ++ [archId]) [archId] ci

/-- `ArchetypeManager::get_or_insert_with_info`.  The `panic!`-equivalent
("Too many Archetypes", when the wrapped id counter hands back 0) is an
`Except.error`.  On the hit path the source returns the stored archetype
by reference and changes nothing. -/
def getOrInsertWithInfo (m : ArchetypeManager) (info : List ComponentInfo) :
    Except String (Nat × ArchetypeManager) :=
  let ids : List ComponentId := info.map (·.id)
  match lookupA ids m.index with
  | some archId => .ok (archId, m)
  | none =>
    let id := m.next
    let next₁ := (m.next + 1) % u32Mod
    if id = 0 then .error "Too many Archetypes"
    else
      let archId := id
      let archetypes₁ :=
        insertIfAbsentA archId (Archetype.fromInfo archId info) m.archetypes
      let componentIndex₁ :=
        ids.foldl (fun ci compId => pushComponentIndex ci compId archId)
          m.componentIndex
      let index₁ := insertReplaceA ids archId m.index
      .ok (archId,
        { archetypes := archetypes₁
          next := next₁
          index := index₁
          componentIndex := componentIndex₁ })

/-- `ArchetypeManager::query_component`. -/
def queryComponent (m : ArchetypeManager) (c : ComponentId) : Option (List Nat) :=
  lookupA c m.componentIndex

end ArchetypeManager

/-! ## Concrete component fixtures used by witnesses and counterexamples -/

/-- A plain 4-byte component without destructor (e.g. a newtype over `f32`). -/
def cLen : ComponentInfo := { id := 5, size := 4, align := 4, hasDrop := false }

/-- An 8-byte component with a non-trivial destructor. -/
def cFlow : ComponentInfo := { id := 7, size := 8, align := 8, hasDrop := true }

/-- A 2-byte component without destructor. -/
def cDepth : ComponentInfo := { id := 9, size := 2, align := 2, hasDrop := false }

/-! ## Claims about the identity registry -/

theorem lemma_dropLoopCalls (n : Nat) : dropLoopCalls n = n := by
  have h : ∀ (l : List Nat) (s : Nat),
      l.foldl (fun acc _ => acc + 1) s = s + l.length := by
    intro l
    induction l with
    | nil => simp
    | cons x xs ih =>
      intro s
      rw [List.foldl_cons, ih]
      simp
      omega
  simp [dropLoopCalls, h]

/-- C2: starting from a new `EntityManager`, no sequence of
`create`/`with_id`/`destroy`/`get_loc` calls ever inserts into the live
identifier-to-location map — it stays empty, so `with_id` never reports
`DuplicateID` for an in-bounds id, and `destroy` (even of an id just
returned by `create`) always reports `DoesNotExist`. -/
theorem entityManager_live_map_stays_empty (ops : List EOp) :
    (runE EntityManager.new ops).entities = []
    ∧ (∀ id : Nat, id ≤ Entity.EXTERNAL_MAX →
        (runE EntityManager.new ops).withId id = .ok id)
    ∧ (∀ e : Nat,
        ((runE EntityManager.new ops).destroy e).1
          = .error (.doesNotExist e)) := by
  obtain ⟨he, hf⟩ := runE_empty_invariant ops EntityManager.new ⟨rfl, rfl⟩
  refine ⟨he, ?_, ?_⟩
  · intro id hid
    simp [EntityManager.withId, he, lookupA, Nat.not_lt.mpr hid]
  · intro e
    simp [EntityManager.destroy, he, lookupA]

/-- C2 witness: after one `create` (which from a fresh manager returns
`Entity::INTERNAL_MIN = 0x80000000`), the map is still empty, `with_id 5`
succeeds and destroying the just-created id reports `DoesNotExist`. -/
theorem entityManager_live_map_stays_empty_witness :
    (runE EntityManager.new [EOp.create]).entities = []
    ∧ (runE EntityManager.new [EOp.create]).withId 5 = .ok 5
    ∧ ((runE EntityManager.new [EOp.create]).destroy 2147483648).1
        = .error (.doesNotExist 2147483648) :=
  ⟨(entityManager_live_map_stays_empty [EOp.create]).1,
   (entityManager_live_map_stays_empty [EOp.create]).2.1 5 (by decide),
   (entityManager_live_map_stays_empty [EOp.create]).2.2 2147483648⟩

/-- An `EntityManager` whose auto-increment counter has reached
`u32::MAX`, as produced by `2^31 - 1` fresh `create` calls from a new
manager. -/
def exhaustedEM : EntityManager :=
  { entities := [], next := Entity.NULL, freeList := [] }

/-- C3 (code bug): fresh allocation is checked only through
`NonZeroU32::try_from`, so `create` hands out the reserved sentinel
`u32::MAX` (`Entity::NULL`, above `Entity::INTERNAL_MAX`); after the
counter wraps, it returns one recoverable `Overflow` error and then keeps
allocating ids `1, 2, …` inside the externally-reserved low range — not
the claimed fatal, non-retryable exhaustion confined to
`2^31 .. 2^32-2`. -/
theorem create_hands_out_sentinel_then_wraps :
    (exhaustedEM.create.1 = .ok Entity.NULL)
    ∧ Entity.INTERNAL_MAX < Entity.NULL
    ∧ (exhaustedEM.create.2.create.1 = .error .overflow)
    ∧ (exhaustedEM.create.2.create.2.create.1 = .ok 1)
    ∧ 1 < Entity.INTERNAL_MIN :=
  ⟨rfl, by decide, rfl, rfl, by decide⟩

/-- C8: `destroy` on a live id removes exactly that mapping (afterwards
the id no longer resolves), returns its last known location, and appends
the id to the free list; on a dead id it reports `DoesNotExist` and
returns the manager unchanged. -/
theorem destroy_contract (m : EntityManager) (e : Nat)
    (hnd : (m.entities.map Prod.fst).Nodup) :
    (∀ loc, lookupA e m.entities = some loc →
      m.destroy e =
        (.ok { entity := e, location := loc },
         { m with entities := removeA e m.entities,
                  freeList := m.freeList ++ [e] })
      ∧ lookupA e (removeA e m.entities) = none)
    ∧ (lookupA e m.entities = none →
        m.destroy e = (.error (.doesNotExist e), m)) := by
  constructor
  · intro loc hl
    refine ⟨by simp [EntityManager.destroy, hl], ?_⟩
    rcases @lookupA_removeA_of_nodup Nat Location _ e m.entities hnd with h | h
    · exact h
    · rw [hl] at h
      cases h
  · intro hn
    simp [EntityManager.destroy, hn]

/-- A manager with one live entity `3` stored at archetype 1, row 0. -/
def oneLiveEM : EntityManager :=
  { entities := [(3, { archetype := 1, index := 0 })]
    next := Entity.INTERNAL_MIN
    freeList := [] }

/-- C8 witness: both branches of `destroy_contract` at a concrete
manager holding entity `3`. -/
theorem destroy_contract_witness :
    (oneLiveEM.destroy 3 =
      (.ok { entity := 3, location := { archetype := 1, index := 0 } },
       { oneLiveEM with entities := removeA 3 oneLiveEM.entities,
                        freeList := oneLiveEM.freeList ++ [3] })
     ∧ lookupA 3 (removeA 3 oneLiveEM.entities) = none)
    ∧ oneLiveEM.destroy 7 = (.error (.doesNotExist 7), oneLiveEM) :=
  ⟨(destroy_contract oneLiveEM 3 (by decide)).1
      { archetype := 1, index := 0 } (by decide),
   (destroy_contract oneLiveEM 7 (by decide)).2 (by decide)⟩

/-! ## Claims about archetype storage -/

/-- C4: dropping an `Archetype` holding `n` occupied rows runs each
column's type-erased destructor exactly `n` times (once per occupied
row), regardless of the column's capacity. -/
theorem drop_runs_destructor_once_per_row (a : Archetype)
    (col : ComponentColumn) (hmem : col ∈ a.components)
    (hd : col.info.hasDrop = true) :
    dropTraceColumn a.entities.length a.capacity col ∈ a.dropTrace
    ∧ (dropTraceColumn a.entities.length a.capacity col).destructorCalls
        = a.entities.length := by
  refine ⟨List.mem_map_of_mem _ hmem, ?_⟩
  simp [dropTraceColumn, hd, lemma_dropLoopCalls]

/-- An archetype of the destructor-carrying component with two occupied
rows (capacity has grown to 8, exceeding the row count). -/
def twoRowArch : Archetype := ((Archetype.fromInfo 1 [cFlow]).insert 10).insert 11

/-- C4 witness: in `twoRowArch` (2 rows, capacity 8) the destructor of
the single column runs exactly twice on drop. -/
theorem drop_runs_destructor_once_per_row_witness :
    dropTraceColumn twoRowArch.entities.length twoRowArch.capacity
        { info := cFlow, allocCap := 8 } ∈ twoRowArch.dropTrace
    ∧ (dropTraceColumn twoRowArch.entities.length twoRowArch.capacity
        { info := cFlow, allocCap := 8 }).destructorCalls
        = twoRowArch.entities.length :=
  drop_runs_destructor_once_per_row twoRowArch
    { info := cFlow, allocCap := 8 } (by decide) (by decide)

/-- C5: `insert` grows exactly when `occupied_count + 1` exceeds half the
current capacity; growth sets the capacity to `max (2 * old) 8`, and after
the insertion every column's allocation matches the (possibly new)
archetype capacity, provided it did before. -/
theorem insert_growth_policy (a : Archetype) (e : Nat)
    (hu : ∀ col ∈ a.components, col.allocCap = a.capacity) :
    ((a.insert e).capacity =
      if a.capacity / 2 < a.entities.length + 1 then max (a.capacity * 2) 8
      else a.capacity)
    ∧ ((a.insert e).capacity ≠ a.capacity ↔
        a.capacity / 2 < a.entities.length + 1)
    ∧ (∀ col ∈ (a.insert e).components,
        col.allocCap = (a.insert e).capacity) := by
  have hmax : max (a.capacity * 2) 8 ≠ a.capacity := by
    rw [Nat.max_def]
    split <;> omega
  by_cases hc : a.capacity / 2 < a.entities.length + 1
  · refine ⟨by simp [Archetype.insert, Archetype.grow, hc], ?_, ?_⟩
    · simp [Archetype.insert, Archetype.grow, hc, hmax]
    · intro col hcol
      simp only [Archetype.insert, Archetype.grow, hc, if_true,
        List.mem_map] at hcol
      obtain ⟨c, _, rfl⟩ := hcol
      simp [Archetype.insert, Archetype.grow, hc]
  · refine ⟨by simp [Archetype.insert, hc], by simp [Archetype.insert, hc], ?_⟩
    intro col hcol
    simp only [Archetype.insert, hc, if_false] at hcol
    simpa [Archetype.insert, hc] using hu col hcol

/-- C5 witness: inserting into the fresh capacity-0 archetype of `cLen`
triggers growth to capacity 8, and its single column is allocated for
exactly 8 elements. -/
theorem insert_growth_policy_witness :
    (((Archetype.fromInfo 1 [cLen]).insert 10).capacity =
      if (Archetype.fromInfo 1 [cLen]).capacity / 2 <
          (Archetype.fromInfo 1 [cLen]).entities.length + 1
      then max ((Archetype.fromInfo 1 [cLen]).capacity * 2) 8
      else (Archetype.fromInfo 1 [cLen]).capacity)
    ∧ ({ info := cLen, allocCap := 8 } : ComponentColumn).allocCap =
        ((Archetype.fromInfo 1 [cLen]).insert 10).capacity :=
  ⟨(insert_growth_policy (Archetype.fromInfo 1 [cLen]) 10 (by decide)).1,
   (insert_growth_policy (Archetype.fromInfo 1 [cLen]) 10 (by decide)).2.2
     { info := cLen, allocCap := 8 } (by decide)⟩

/-- A capacity-0 archetype (fresh from `from_info`) over a component of
nonzero size: its single column still holds the dangling sentinel. -/
def neverGrownArch : Archetype := Archetype.fromInfo 1 [cLen]

/-- C9 (code bug): `Drop for Archetype` guards `dealloc` on
`layout.size() > 0`, not on `capacity > 0`, so dropping a never-grown
capacity-0 archetype of a nonzero-size component reaches `dealloc` on the
column's dangling sentinel pointer, with a zero-byte layout — the claimed
"dealloc only when capacity > 0" is violated. -/
theorem drop_deallocates_never_allocated_column :
    neverGrownArch.capacity = 0
    ∧ (∀ col ∈ neverGrownArch.components, col.allocCap = 0)
    ∧ neverGrownArch.dropTrace.map (·.deallocCalled) = [true]
    ∧ neverGrownArch.dropTrace.map (·.deallocBytes) = [0] := by decide

/-! ## Claims about the archetype registry -/

/-- The component-index entry for `c`, as a list (absent = `[]`). -/
def getListCI (c : ComponentId) (ci : List (ComponentId × List Nat)) : List Nat :=
  (lookupA c ci).getD []

theorem getListCI_push_self (c : ComponentId) (a : Nat)
    (ci : List (ComponentId × List Nat)) :
    getListCI c (ArchetypeManager.pushComponentIndex ci c a)
      = getListCI c ci ++ [a] := by
  have hself := lookupA_updateOrInsertA_self c (fun l => l ++ [a]) [a] ci
  simp only [getListCI, ArchetypeManager.pushComponentIndex, hself]
  cases lookupA c ci <;> simp

theorem getListCI_push_ne (c c₁ : ComponentId) (a : Nat)
    (ci : List (ComponentId × List Nat)) (h : c₁ ≠ c) :
    getListCI c (ArchetypeManager.pushComponentIndex ci c₁ a)
      = getListCI c ci := by
  simp only [getListCI, ArchetypeManager.pushComponentIndex,
    lookupA_updateOrInsertA_ne c₁ c _ _ ci h]

theorem getListCI_foldl_push (ids : List ComponentId) (a : Nat)
    (c : ComponentId) (ci : List (ComponentId × List Nat)) :
    getListCI c
      (ids.foldl (fun acc cid => ArchetypeManager.pushComponentIndex acc cid a) ci)
      = getListCI c ci ++ List.replicate (ids.count c) a := by
  induction ids generalizing ci with
  | nil => simp
  | cons c₁ rest ih =>
    rw [List.foldl_cons, ih]
    by_cases h : c₁ = c
    · subst h
      rw [getListCI_push_self, List.append_assoc]
      simp [List.count_cons, List.replicate_succ]
    · rw [getListCI_push_ne c c₁ a ci h]
      have h₁ : ¬(c = c₁) := fun hh => h hh.symm
      simp [List.count_cons, h₁]

theorem lookupA_foldl_push_isSome (ids : List ComponentId) (a : Nat)
    (c : ComponentId) (ci : List (ComponentId × List Nat)) (hc : c ∈ ids) :
    (lookupA c
      (ids.foldl (fun acc cid => ArchetypeManager.pushComponentIndex acc cid a) ci)).isSome := by
  cases h : lookupA c
      (ids.foldl (fun acc cid => ArchetypeManager.pushComponentIndex acc cid a) ci) with
  | some l => rfl
  | none =>
    exfalso
    have hfold := getListCI_foldl_push ids a c ci
    rw [getListCI, h] at hfold
    have hcount : 0 < ids.count c := List.count_pos_iff.mpr hc
    have hne : getListCI c ci ++ List.replicate (ids.count c) a ≠ [] := by
      simp
      omega
    exact hne hfold.symm

/-- C1 (counterexample): from a fresh registry, requesting the pair in the
two orders yields two different archetype ids — the registry does not
canonicalize the requested sequence. -/
def pairOrderIds : Option (Nat × Nat) :=
  match ArchetypeManager.new.getOrInsertWithInfo [cLen, cFlow] with
  | .ok (i₁, m₁) =>
    match m₁.getOrInsertWithInfo [cFlow, cLen] with
    | .ok (i₂, _) => some (i₁, i₂)
    | .error _ => none
  | .error _ => none

/-- C1 counterexample: `get_or_insert_with_info([Len, Flow])` returns
archetype id 1 and a following `get_or_insert_with_info([Flow, Len])`
returns the distinct id 2 — refuting that the two orders yield the same
archetype id. -/
theorem pair_order_gives_distinct_ids :
    pairOrderIds = some (1, 2) ∧ ∀ p ∈ pairOrderIds, p.1 ≠ p.2 := by decide

/-- C1 (amended): the registry keys lookup and creation on the requested
component sequence exactly as given (no sorting, no dedup), so from a
fresh registry, `get_or_create([A, B])` followed by `get_or_create([B, A])`
for distinct component types `A ≠ B` creates two archetypes and returns
the distinct ids 1 and then 2. -/
theorem pair_order_not_canonicalized (ia ib : ComponentInfo)
    (hne : ia.id ≠ ib.id) :
    (ArchetypeManager.new.getOrInsertWithInfo [ia, ib]).map Prod.fst = .ok 1
    ∧ ((ArchetypeManager.new.getOrInsertWithInfo [ia, ib]).bind
        (fun p => (p.2.getOrInsertWithInfo [ib, ia]).map Prod.fst)) = .ok 2 := by
  have h₁ : ¬([ia.id, ib.id] = [unitInfo.id]) := by simp
  have h₂ : ¬([ib.id, ia.id] = [unitInfo.id]) := by simp
  have h₃ : ¬([ia.id, ib.id] = [ib.id, ia.id]) := by
    simp only [List.cons.injEq, and_true, not_and]
    intro hh
    exact absurd hh hne
  have h₄ : ¬([ib.id, ia.id] = [ia.id, ib.id]) := fun hh => h₃ hh.symm
  constructor
  · simp [ArchetypeManager.getOrInsertWithInfo, ArchetypeManager.new,
      lookupA, h₁, u32Mod, Except.map]
  · simp [ArchetypeManager.getOrInsertWithInfo, ArchetypeManager.new,
      lookupA, insertReplaceA, h₁, h₂, h₄, hne, Except.bind, Except.map,
      u32Mod]

/-- C1 amended witness: the two orders of the concrete pair
`[cLen, cFlow]` get ids 1 and then 2. -/
theorem pair_order_not_canonicalized_witness :
    (ArchetypeManager.new.getOrInsertWithInfo [cLen, cFlow]).map Prod.fst = .ok 1
    ∧ ((ArchetypeManager.new.getOrInsertWithInfo [cLen, cFlow]).bind
        (fun p => (p.2.getOrInsertWithInfo [cFlow, cLen]).map Prod.fst)) = .ok 2 :=
  pair_order_not_canonicalized cLen cFlow (by decide)

/-- C6: when `get_or_insert_with_info` actually creates a new archetype
(the requested key is absent) in a well-formed registry (every id recorded
in the component index is below the id counter), then for every component
id of the (duplicate-free) request, `query_component` afterwards returns a
list containing the new archetype's id exactly once. -/
theorem component_index_completeness (m : ArchetypeManager)
    (infos : List ComponentInfo) (i : Nat) (m' : ArchetypeManager)
    (hwf : ∀ p ∈ m.componentIndex, ∀ x ∈ p.2, x < m.next)
    (hnodup : (infos.map (·.id)).Nodup)
    (hmiss : lookupA (infos.map (·.id)) m.index = none)
    (hok : m.getOrInsertWithInfo infos = .ok (i, m')) :
    ∀ c ∈ infos.map (·.id),
      (m'.queryComponent c).isSome = true
      ∧ ((m'.queryComponent c).getD []).count i = 1 := by
  by_cases h0 : m.next = 0
  · simp [ArchetypeManager.getOrInsertWithInfo, hmiss, h0] at hok
  · simp only [ArchetypeManager.getOrInsertWithInfo, hmiss, h0, if_false,
      Except.ok.injEq, Prod.mk.injEq] at hok
    obtain ⟨hi, hm'⟩ := hok
    subst hi
    subst hm'
    intro c hcmem
    constructor
    · exact lookupA_foldl_push_isSome (infos.map (·.id)) m.next c
        m.componentIndex hcmem
    · have hnot : m.next ∉ getListCI c m.componentIndex := by
        intro hmem
        unfold getListCI at hmem
        cases hl : lookupA c m.componentIndex with
        | none =>
          rw [hl] at hmem
          simp at hmem
        | some l =>
          rw [hl] at hmem
          simp at hmem
          exact absurd (hwf (c, l) (lookupA_mem hl) m.next hmem)
            (by omega)
      have hzero : (getListCI c m.componentIndex).count m.next = 0 :=
        List.count_eq_zero_of_not_mem hnot
      have hone : (infos.map (·.id)).count c = 1 :=
        List.count_eq_one_of_mem hnodup hcmem
      have hfold := getListCI_foldl_push (infos.map (·.id)) m.next c
        m.componentIndex
      show (getListCI c _).count m.next = 1
      rw [hfold, List.count_append, hzero, hone, List.count_replicate_self]

/-- The registry after creating the archetype for
`[cLen, cFlow, cDepth]` in a fresh registry. -/
def tripleReg : ArchetypeManager :=
  match ArchetypeManager.new.getOrInsertWithInfo [cLen, cFlow, cDepth] with
  | .ok p => p.2
  | .error _ => ArchetypeManager.new

/-- C6 witness: after creating the three-component archetype (id 1) in a
fresh registry, `query_component cFlow.id` lists id 1 exactly once. -/
theorem component_index_completeness_witness :
    (tripleReg.queryComponent 7).isSome = true
    ∧ ((tripleReg.queryComponent 7).getD []).count 1 = 1 :=
  component_index_completeness ArchetypeManager.new [cLen, cFlow, cDepth]
    1 tripleReg (by decide) (by decide) (by decide) rfl 7 (by decide)

/-- C7 counterexample: the freshly seeded registry holds exactly one
archetype at id 0, but its attribute set is the singleton `[()]` (the
unit component's id), not the empty set — a `get_or_create` of the truly
empty component list would miss it. -/
theorem seeded_archetype_set_not_empty :
    ArchetypeManager.new.archetypes.map Prod.fst = [0]
    ∧ (∀ p ∈ ArchetypeManager.new.archetypes, p.2.componentIds = [unitInfo.id])
    ∧ (∀ p ∈ ArchetypeManager.new.archetypes, p.2.componentIds ≠ [])
    ∧ lookupA ([] : List ComponentId) ArchetypeManager.new.index = none := by
  decide

/-- C7 (amended): a fresh registry contains exactly one archetype, stored
at the reserved id 0, whose attribute set is the singleton unit component
`[()]` (the code's stand-in for "no attributes"); the id counter starts
at 1 and every id a successful creation hands out is nonzero, so the
reserved id is never reused. -/
theorem registry_seeded_at_reserved_id (m : ArchetypeManager)
    (infos : List ComponentInfo) (i : Nat) (m' : ArchetypeManager)
    (hmiss : lookupA (infos.map (·.id)) m.index = none)
    (hok : m.getOrInsertWithInfo infos = .ok (i, m')) :
    (ArchetypeManager.new.archetypes.map Prod.fst = [0]
     ∧ ArchetypeManager.new.getById 0 = some (Archetype.fromInfo 0 [unitInfo])
     ∧ (Archetype.fromInfo 0 [unitInfo]).componentIds = [unitInfo.id]
     ∧ ArchetypeManager.new.next = 1)
    ∧ i ≠ 0 := by
  refine ⟨by decide, ?_⟩
  by_cases h0 : m.next = 0
  · simp [ArchetypeManager.getOrInsertWithInfo, hmiss, h0] at hok
  · simp only [ArchetypeManager.getOrInsertWithInfo, hmiss, h0, if_false,
      Except.ok.injEq, Prod.mk.injEq] at hok
    obtain ⟨hi, _⟩ := hok
    rw [← hi]
    exact h0

/-- The registry after creating the archetype for `[cLen]` in a fresh
registry. -/
def singleReg : ArchetypeManager :=
  match ArchetypeManager.new.getOrInsertWithInfo [cLen] with
  | .ok p => p.2
  | .error _ => ArchetypeManager.new

/-- C7 amended witness: creating `[cLen]` in a fresh registry hands out
the nonzero id 1, and the seeded facts hold. -/
theorem registry_seeded_at_reserved_id_witness :
    (ArchetypeManager.new.archetypes.map Prod.fst = [0]
     ∧ ArchetypeManager.new.getById 0 = some (Archetype.fromInfo 0 [unitInfo])
     ∧ (Archetype.fromInfo 0 [unitInfo]).componentIds = [unitInfo.id]
     ∧ ArchetypeManager.new.next = 1)
    ∧ (1 : Nat) ≠ 0 :=
  registry_seeded_at_reserved_id ArchetypeManager.new [cLen] 1 singleReg
    (by decide) rfl

/-- C10: `get_or_insert_with_info` is idempotent — after a successful call
returning id `i` and state `m₁`, repeating the call with the components in
the same order returns the same id `i` and leaves the state (hence the
number of archetypes) unchanged. -/
theorem get_or_insert_idempotent (m : ArchetypeManager)
    (infos : List ComponentInfo) (i : Nat) (m₁ : ArchetypeManager)
    (h : m.getOrInsertWithInfo infos = .ok (i, m₁)) :
    m₁.getOrInsertWithInfo infos = .ok (i, m₁)
    ∧ (m₁.getOrInsertWithInfo infos).map (fun p => p.2.archetypes.length)
        = .ok m₁.archetypes.length := by
  cases hl : lookupA (infos.map (·.id)) m.index with
  | some j =>
    simp only [ArchetypeManager.getOrInsertWithInfo, hl, Except.ok.injEq,
      Prod.mk.injEq] at h
    obtain ⟨hj, hm⟩ := h
    subst hj
    subst hm
    constructor
    · simp [ArchetypeManager.getOrInsertWithInfo, hl]
    · simp [ArchetypeManager.getOrInsertWithInfo, hl, Except.map]
  | none =>
    by_cases h0 : m.next = 0
    · simp [ArchetypeManager.getOrInsertWithInfo, hl, h0] at h
    · simp only [ArchetypeManager.getOrInsertWithInfo, hl, h0, if_false,
        Except.ok.injEq, Prod.mk.injEq] at h
      obtain ⟨hi, hm⟩ := h
      subst hi
      subst hm
      have hself := lookupA_insertReplaceA_self (infos.map (·.id)) m.next
        m.index
      constructor
      · simp [ArchetypeManager.getOrInsertWithInfo, hself]
      · simp [ArchetypeManager.getOrInsertWithInfo, hself, Except.map]

/-- C10 witness: repeating the creation of `[cLen]` returns the same id 1
and the same registry. -/
theorem get_or_insert_idempotent_witness :
    singleReg.getOrInsertWithInfo [cLen] = .ok (1, singleReg)
    ∧ (singleReg.getOrInsertWithInfo [cLen]).map
        (fun p => p.2.archetypes.length) = .ok singleReg.archetypes.length :=
  get_or_insert_idempotent ArchetypeManager.new [cLen] 1 singleReg rfl

end ChatEcs
